import Mathlib

/-!
# Verification development for the FEM.edu core

Shallow embedding of the repository core that the specification talks
about: the `Node` DOF registry (src/src/domain/Node.py), the
`LinearTriangle` element (src/src/femedu/elements/LinearTriangle.py) and
the corotational wrapper `CorotQuad`
(src/src/femedu/elements/wrapper/Corotational.py).

Scalars are modelled by `ℚ` (the Python code computes with floats but
every claim under scrutiny is exact arithmetic), numpy vectors by lists
or `Fin n → ℚ`, numpy 2-d arrays by `Matrix (Fin m) (Fin n) ℚ`, Python
dictionaries by insertion-ordered association lists, and Python
exceptions by an `Except PyErr` result.
-/

deriving instance DecidableEq for Except

namespace FEMedu

/-! ## Python exception model -/

/-- The Python exception classes raised (or claimed to be raised) by the
modelled code.  `KeyError` and `IndexError` are subclasses of
`LookupError` in Python. -/
inductive PyExcClass where
  | KeyError
  | IndexError
  | TypeError
  | AttributeError
  | LookupError
deriving DecidableEq

/-- Python exception-class hierarchy: which classes are (subclasses of)
`LookupError`. -/
def PyExcClass.isLookupError : PyExcClass → Bool
  | .KeyError => true
  | .IndexError => true
  | .LookupError => true
  | _ => false

/-- A raised Python exception: its class and its message. -/
structure PyErr where
  cls : PyExcClass
  msg : String
deriving DecidableEq

/-! ## Association lists (Python `dict` with insertion order) -/

/-- First-match lookup in an insertion-ordered association list
(Python `d[k]` / `k in d`). -/
def alookup {β : Type} : List (String × β) → String → Option β
  | [], _ => none
  | (k, v) :: rest, c => if k = c then some v else alookup rest c

/-- Python `d[k] = v`: overwrite the first binding of `k` if present,
otherwise append a new binding (dictionaries keep insertion order). -/
def aset {β : Type} : List (String × β) → String → β → List (String × β)
  | [], k, v => [(k, v)]
  | (k0, v0) :: rest, k, v =>
      if k0 = k then (k0, v) :: rest else (k0, v0) :: aset rest k v

/-- `np.zeros(k)` as a list. -/
def npZeros (k : Nat) : List ℚ := List.replicate k 0

/-- numpy element assignment `v[i] = x`: raises `IndexError` when `i` is
out of bounds. -/
def npSet (v : List ℚ) (i : Nat) (x : ℚ) : Except PyErr (List ℚ) :=
  if i < v.length then .ok (v.set i x)
  else .error ⟨.IndexError, "index out of bounds"⟩

/-! ## Node (src/src/domain/Node.py) -/

/-- State of `Node`, mirroring the attributes set in `Node.__init__`.
`dofs` maps a DOF code to its local index, `elements` holds the callers
recorded by `request` (elements are compared by identity in Python; we
identify them by a `Nat` id), `loads` is the DOF-code-keyed load map.
The unused `transform` attribute is omitted.  The field `hasLoadFlag`
models the attribute `_hasLoad`. -/
structure Node where
  pos : List ℚ
  index : Int := -1
  disp : Option (List ℚ) := none
  dofs : List (String × Nat) := []
  ndofs : Nat := 0
  start : Option Nat := none
  elements : List Nat := []
  fixity : List String := []
  loads : List (String × ℚ) := []
  hasLoadFlag : Bool := false
deriving DecidableEq

/-- `Node.__init__(x0, y0, z0=None)`: a 3-component position when `z0`
is a number, else a 2-component position. -/
def Node.init (x0 y0 : ℚ) (z0 : Option ℚ) : Node :=
  { pos := match z0 with
           | some z => [x0, y0, z]
           | none => [x0, y0] }

/-- Body of the loop in `Node.request` for a single code:
if the code is unknown, bind it to the next index `ndofs` and increment
`ndofs`; in both cases return the code's index. -/
def Node.requestOne (n : Node) (dof : String) : Node × Nat :=
  match alookup n.dofs dof with
  | some i => (n, i)
  | none => ({ n with dofs := n.dofs ++ [(dof, n.ndofs)], ndofs := n.ndofs + 1 }, n.ndofs)

/-- The `for dof in dof_list` loop of `Node.request`, accumulating
`dof_idx`. -/
def Node.requestLoop (n : Node) : List String → Node × List Nat
  | [] => (n, [])
  | dof :: rest =>
      let p := n.requestOne dof
      let q := p.1.requestLoop rest
      (q.1, p.2 :: q.2)

/-- `Node.request(dof_list, caller)`: run the registration loop, then
record `caller` in `elements` unless already present; return the new
state and the tuple of local indices. -/
def Node.request (n : Node) (dof_list : List String) (caller : Nat) : Node × List Nat :=
  let q := n.requestLoop dof_list
  let n2 := if caller ∈ q.1.elements then q.1
            else { q.1 with elements := q.1.elements ++ [caller] }
  (n2, q.2)

/-- The `KeyError` message raised by `Node.dof2idx`:
`'Dof {} does not exist in node {}'.format(dof, self.index)`. -/
def keyErrMsg (dof : String) (index : Int) : String :=
  "Dof " ++ dof ++ " does not exist in node " ++ toString index

/-- `Node.dof2idx` on the `isinstance(dof_list, str)` branch: a single
code gives a one-element index array, or raises `KeyError`. -/
def Node.dof2idxStr (n : Node) (dof : String) : Except PyErr (List Nat) :=
  match alookup n.dofs dof with
  | some i => .ok [i]
  | none => .error ⟨.KeyError, keyErrMsg dof n.index⟩

/-- `Node.dof2idx` on the list branch: collect indices in order, raising
`KeyError` at the first unregistered code. -/
def Node.dof2idx (n : Node) : List String → Except PyErr (List Nat)
  | [] => .ok []
  | dof :: rest =>
      match alookup n.dofs dof with
      | some i => (n.dof2idx rest).map (fun is => i :: is)
      | none => .error ⟨.KeyError, keyErrMsg dof n.index⟩

/-- `Node.fixDOF(*dofs)`: append each code not already in `fixity`. -/
def Node.fixDOF (n : Node) (dofs_arg : List String) : Node :=
  let fx1 := dofs_arg.foldl (fun fx dof => if dof ∈ fx then fx else fx ++ [dof]) n.fixity
  { n with fixity := fx1 }

/-- `Node.isFixed(dof)`. -/
def Node.isFixed (n : Node) (dof : String) : Bool := decide (dof ∈ n.fixity)

/-- `Node.areFixed()`: the loop `for i, dof in enumerate(self.fixity):
idx.append(i)` appends the enumeration counter for every entry of
`fixity`, i.e. it returns `[0, 1, ..., len(fixity) - 1]`. -/
def Node.areFixed (n : Node) : List Nat := List.range n.fixity.length

/-- `Node.setDisp(U, dof_list)`: stores `U` as the displacement vector
(the `dof_list` argument is ignored by the code). -/
def Node.setDisp (n : Node) (U : List ℚ) : Node := { n with disp := some U }

/-- `Node._updateDisp(dU)`: `self.disp += dU`.  numpy in-place addition
on an ndarray: elementwise when the lengths agree, broadcast when `dU`
has length 1, and on any other shape mismatch it raises `ValueError`
leaving `disp` unchanged (modelled as the unchanged vector) — in no case
does the length of `disp` change.  When `disp` is `None` the Python
statement raises `TypeError`, modelled as leaving the state `none`. -/
def Node.updateDisp (n : Node) (dU : List ℚ) : Node :=
  { n with disp := n.disp.map (fun v =>
      if dU.length = v.length then List.zipWith (· + ·) v dU
      else if dU.length = 1 then v.map (fun x => x + dU.headD 0)
      else v) }

/-- `Node.getDisp()` (no `dof_list`): lazily initialize `disp` to
`np.zeros(self.ndofs)`, then return it together with the mutated node. -/
def Node.getDisp (n : Node) : List ℚ × Node :=
  match n.disp with
  | some v => (v, n)
  | none => (npZeros n.ndofs, { n with disp := some (npZeros n.ndofs) })

/-- `Node.getDeformedPos(factor)`: same lazy initialization of `disp`,
then `self.pos + factor * self.disp` (numpy requires equal lengths for
the sum; the value is only meaningful in that case). -/
def Node.getDeformedPos (n : Node) (factor : ℚ) : List ℚ × Node :=
  let p := n.getDisp
  (List.zipWith (fun X u => X + factor * u) p.2.pos p.1, p.2)

/-- `Node.resetDisp()`: `self.disp = np.zeros(len(self.dofs))`. -/
def Node.resetDisp (n : Node) : Node :=
  { n with disp := some (npZeros n.dofs.length) }

/-- One step of the `Node.addLoad` loop:
`self.loads[dof] += load` when the key exists, else `self.loads[dof] = load`. -/
def Node.addLoadOne (n : Node) (load : ℚ) (dof : String) : Node :=
  match alookup n.loads dof with
  | some old => { n with loads := aset n.loads dof (old + load) }
  | none => { n with loads := aset n.loads dof load }

/-- `Node.addLoad(loads, dofs)`: accumulate over `zip(loads, dofs)` and
set `_hasLoad`. -/
def Node.addLoad (n : Node) (loads : List ℚ) (dofs_arg : List String) : Node :=
  let n1 := (List.zip loads dofs_arg).foldl (fun m p => m.addLoadOne p.1 p.2) n
  { n1 with hasLoadFlag := true }

/-- `Node.setLoad(loads, dofs)`: overwrite over `zip(loads, dofs)` and
set `_hasLoad`. -/
def Node.setLoad (n : Node) (loads : List ℚ) (dofs_arg : List String) : Node :=
  let n1 := (List.zip loads dofs_arg).foldl
      (fun m p => { m with loads := aset m.loads p.2 p.1 }) n
  { n1 with hasLoadFlag := true }

/-- The `for dof in self.loads` loop of `Node.getLoad`: write
`self.loads[dof]` at index `self.dofs[dof]` whenever the code is
registered, silently skipping unregistered codes. -/
def getLoadLoop (dofs : List (String × Nat)) :
    List (String × ℚ) → List ℚ → Except PyErr (List ℚ)
  | [], force => .ok force
  | (dof, val) :: rest, force =>
      match alookup dofs dof with
      | some i => (npSet force i val).bind (getLoadLoop dofs rest)
      | none => getLoadLoop dofs rest force

/-- `Node.getLoad()`: start from `np.zeros(self.ndofs)` and run the loop. -/
def Node.getLoad (n : Node) : Except PyErr (List ℚ) :=
  getLoadLoop n.dofs n.loads (npZeros n.ndofs)

/-- Registry well-formedness maintained by the `Node` code: every
assigned local index is below the DOF count and there are exactly
`ndofs` bindings. -/
def Node.wfDofs (n : Node) : Bool :=
  n.dofs.all (fun p => p.2 < n.ndofs) && n.dofs.length = n.ndofs

/-- The displacement-length invariant claimed by the specification:
whenever the displacement vector exists, its length equals the number of
registered DOFs. -/
def Node.dispLenInv (n : Node) : Bool :=
  match n.disp with
  | none => true
  | some v => v.length = n.ndofs

/-! ## Sequences of public Node operations (for the invariant claims) -/

/-- The public `Node` operations named by the displacement-length
invariant claim. -/
inductive NodeOp where
  | request (dl : List String) (caller : Nat)
  | getDisp
  | getDeformedPos (factor : ℚ)
  | updateDisp (dU : List ℚ)
  | setDisp (U : List ℚ)
  | resetDisp
deriving DecidableEq

/-- State effect of one operation. -/
def Node.applyOp (n : Node) : NodeOp → Node
  | .request dl c => (n.request dl c).1
  | .getDisp => n.getDisp.2
  | .getDeformedPos f => (n.getDeformedPos f).2
  | .updateDisp dU => n.updateDisp dU
  | .setDisp U => n.setDisp U
  | .resetDisp => n.resetDisp

/-- State effect of a sequence of operations. -/
def Node.applyOps (n : Node) (ops : List NodeOp) : Node := ops.foldl Node.applyOp n

/-- The side conditions under which one operation preserves the
displacement-length invariant: `request` must not register a new code
while the displacement vector exists, and `setDisp` must supply a
vector of length equal to the DOF count.  All other operations —
`_updateDisp` included, since numpy in-place addition never changes the
length of `disp` — preserve the invariant unconditionally. -/
def Node.safeOp (n : Node) : NodeOp → Bool
  | .request dl _ => n.disp = none || dl.all (fun c => (alookup n.dofs c).isSome)
  | .setDisp U => U.length = n.ndofs
  | _ => true

/-- A whole sequence of operations is safe when each operation is safe
in the state it is applied to. -/
def Node.safeOps (n : Node) : List NodeOp → Bool
  | [] => true
  | op :: rest => n.safeOp op && (n.applyOp op).safeOps rest

/-! ## Small exact linear algebra (2-d nodes)

`LinearTriangle` with 2-d nodes works with 2x2 matrices throughout.  Of
the numpy primitives it uses, only `np.sqrt` leaves `ℚ`; for the 2x2
Gram matrix `GIJ = gcov @ gcov.T` the determinant is the square of
`det gcov`, so its exact square root is `|det gcov|` and the whole
computation stays in `ℚ`. -/

/-- A 2-component vector (one row of a numpy 2x2 array, one nodal
position or displacement). -/
abbrev Vec2 := Fin 2 → ℚ

/-- Determinant of a 2x2 matrix (`np.linalg.det`). -/
def det2 (A : Matrix (Fin 2) (Fin 2) ℚ) : ℚ := A 0 0 * A 1 1 - A 0 1 * A 1 0

/-- Inverse of a 2x2 matrix (`np.linalg.inv`) by the adjugate formula. -/
def inv2 (A : Matrix (Fin 2) (Fin 2) ℚ) : Matrix (Fin 2) (Fin 2) ℚ :=
  (det2 A)⁻¹ • Matrix.of ![![A 1 1, -(A 0 1)], ![-(A 1 0), A 0 0]]

/-- `np.sqrt(np.linalg.det(g @ g.T))` for a 2x2 `g`, computed exactly:
`det (g @ g.T) = (det g) ^ 2`, whose nonnegative square root is
`|det g|`. -/
def sqrtGramDet (g : Matrix (Fin 2) (Fin 2) ℚ) : ℚ := |det2 g|

/-! ## Material collaborator

The concrete material classes (plane-stress St. Venant-Kirchhoff etc.)
are not under src/; `LinearTriangle.updateState` only calls
`setStrain`, `getStress`, `getStiffness` and `getThickness`, with
`getStress`/`getStiffness` evaluated at the last strain set.  They are
abstracted as pure maps of the strain components. -/

/-- The symmetric in-plane strain components passed to
`Material.setStrain` as the Python dict
`{'xx': eps[0,0], 'yy': eps[1,1], 'xy': eps[0,1] + eps[1,0]}`. -/
structure StrainComps where
  xx : ℚ
  yy : ℚ
  xy : ℚ
deriving DecidableEq

/-- The 2nd Piola-Kirchhoff stress dict returned by
`Material.getStress`. -/
structure StressComps where
  xx : ℚ
  yy : ℚ
  xy : ℚ
deriving DecidableEq

/-- The four components of the 1st Piola-Kirchhoff stress stored by
`LinearTriangle.updateState` for reporting. -/
structure PK1Comps where
  xx : ℚ
  xy : ℚ
  yx : ℚ
  yy : ℚ
deriving DecidableEq

/-- Abstract material: `stressOf s` is `getStress()` after
`setStrain(s)`, `stiffnessOf s` is `getStiffness()` after
`setStrain(s)` (a 3x3 tangent on the components (xx, yy, xy)), and
`thickness` is `getThickness()`. -/
structure Material where
  stressOf : StrainComps → StressComps
  stiffnessOf : StrainComps → Matrix (Fin 3) (Fin 3) ℚ
  thickness : ℚ

/-! ## LinearTriangle (src/src/femedu/elements/LinearTriangle.py) -/

/-- State of `LinearTriangle` (2-d nodes): the reference quantities
precomputed in `__init__` and the per-update outputs.  The two fields
`stress` and `Stress` model the two distinct Python attributes of those
names: `updateState` assigns `self.stress`, while `getStress` reads
`self.Stress`.  No code under src/ ever assigns `Stress`; the `Element`
base class is not under src/, so whatever initial value it might give
that attribute is carried abstractly by the field (with `none` meaning
the attribute does not exist and reading it raises `AttributeError`). -/
structure LinearTriangle where
  material : Material
  gcov : Matrix (Fin 2) (Fin 2) ℚ
  GIJ : Matrix (Fin 2) (Fin 2) ℚ
  gcont : Matrix (Fin 2) (Fin 2) ℚ
  area : ℚ
  Forces : Fin 3 → Vec2
  Kt : Fin 3 → Fin 3 → Matrix (Fin 2) (Fin 2) ℚ
  stress : Option PK1Comps
  Stress : Option PK1Comps
  distributed_load : Fin 3 → ℚ

/-- `LinearTriangle.__init__` with three 2-d nodes at reference
positions `X0, X1, X2`: covariant base vectors of the two edges, the
reference metric `GIJ = gcov @ gcov.T`, the dual base vectors
`gcont = inv(GIJ) @ gcov`, and the reference area
`sqrt(det GIJ) / 2`.  `Forces` and `Kt` start as zeros and
`distributed_load` as `[0, 0, 0]`.  `Stress0` abstracts the (absent)
base-class initialization of the `Stress` attribute. -/
def LinearTriangle.init (X0 X1 X2 : Vec2) (m : Material) (Stress0 : Option PK1Comps) :
    LinearTriangle :=
  let base1 := X1 - X0
  let base2 := X2 - X0
  let gcov : Matrix (Fin 2) (Fin 2) ℚ := Matrix.of ![base1, base2]
  let GIJ := gcov * gcov.transpose
  { material := m
    gcov := gcov
    GIJ := GIJ
    gcont := inv2 GIJ * gcov
    area := sqrtGramDet gcov / 2
    Forces := fun _ => 0
    Kt := fun _ _ => 0
    stress := none
    Stress := Stress0
    distributed_load := fun _ => 0 }

/-- `LinearTriangle.updateState()` up to the tangent stiffness
(the surface-load accumulation further down in the source mutates only
`Loads`, which no claim mentions).  The arguments `x0, x1, x2` stand for
`self.nodes[i].getDeformedPos()`.  Mirrors the source line by line:
dual vectors `Gs, Gt` and `Gu = -Gs - Gt`, current base vectors,
deformation gradient `F` as a sum of outer products, Almansi strain
`(F.T @ F - I) / 2` (via `np.tensordot(F, F, ((0,), (0,))) = F.T @ F`),
material stress `S`, 1st Piola-Kirchhoff stress `P = F @ S`, tractions,
kinematic matrices `B_I` and the material-plus-geometric stiffness
blocks. -/
def LinearTriangle.updateState (t : LinearTriangle) (x0 x1 x2 : Vec2) : LinearTriangle :=
  let Gs : Vec2 := t.gcont 0
  let Gt : Vec2 := t.gcont 1
  let Gu : Vec2 := -Gs - Gt
  let gs : Vec2 := x1 - x0
  let gt : Vec2 := x2 - x0
  let F := Matrix.vecMulVec gs Gs + Matrix.vecMulVec gt Gt
  let eps := (2 : ℚ)⁻¹ • (F.transpose * F - 1)
  let strain : StrainComps := ⟨eps 0 0, eps 1 1, eps 0 1 + eps 1 0⟩
  let sc := t.material.stressOf strain
  let S : Matrix (Fin 2) (Fin 2) ℚ := Matrix.of ![![sc.xx, sc.xy], ![sc.xy, sc.yy]]
  let P := F * S
  let ts := P.mulVec Gs
  let tt := P.mulVec Gt
  let tu := P.mulVec Gu
  let gx : Vec2 := Gs 0 • gs + Gt 0 • gt
  let gy : Vec2 := Gs 1 • gs + Gt 1 • gt
  let GI : Fin 3 → Vec2 := ![Gu, Gs, Gt]
  let B : Fin 3 → Matrix (Fin 3) (Fin 2) ℚ := fun i =>
    Matrix.of ![GI i 0 • gx, GI i 1 • gy, GI i 1 • gx + GI i 0 • gy]
  let scale := t.area * t.material.thickness
  let Ct := scale • t.material.stiffnessOf strain
  { t with
    Forces := ![scale • tu, scale • ts, scale • tt]
    Kt := fun i j =>
      (B i).transpose * Ct * B j +
        (Matrix.dotProduct (Matrix.vecMul (GI i) S) (GI j) * scale) •
          (1 : Matrix (Fin 2) (Fin 2) ℚ)
    stress := some ⟨P 0 0, P 0 1, P 1 0, P 1 1⟩ }

/-- `LinearTriangle.getStress()` returns `self.Stress` — an attribute
that `updateState` never writes (it writes `self.stress`); reading a
missing attribute raises `AttributeError`. -/
def LinearTriangle.getStress (t : LinearTriangle) : Except PyErr PK1Comps :=
  match t.Stress with
  | some s => .ok s
  | none => .error ⟨.AttributeError, "LinearTriangle object has no attribute Stress"⟩

/-- `LinearTriangle.setSurfaceLoad(face, w)` body:
`self.distributed_load[face] = w`. -/
def LinearTriangle.setSurfaceLoad (t : LinearTriangle) (face : Fin 3) (w : ℚ) :
    LinearTriangle :=
  { t with distributed_load := Function.update t.distributed_load face w }

/-- A Python argument value as passed at the modelled call sites of
`setSurfaceLoad`: a face index, a number, or an object reference (the
wrapper passes itself). -/
inductive PyVal where
  | face (f : Fin 3)
  | num (q : ℚ)
  | obj
deriving DecidableEq

/-- Python call binding for `LinearTriangle.setSurfaceLoad(self, face, w)`
(a bound method with exactly the two parameters `face` and `w` and no
defaults): the body runs only when exactly two positional arguments of
the right kinds and no keyword arguments are supplied; any other
argument list raises `TypeError` before any state changes.  (Calls that
bind `face`/`w` by keyword would also succeed in Python, but no modelled
call site uses them.) -/
def LinearTriangle.setSurfaceLoadCall (t : LinearTriangle)
    (pos : List PyVal) (kwNames : List String) : Except PyErr LinearTriangle :=
  match pos, kwNames with
  | [.face f, .num w], [] => .ok (t.setSurfaceLoad f w)
  | _, _ => .error ⟨.TypeError, "setSurfaceLoad got unexpected arguments"⟩

/-! ## Corotational wrapper (src/src/femedu/elements/wrapper/Corotational.py) -/

/-- State of `CorotQuad`: the wrapped element plus the copied-through
`Forces` and `Kt` caches.  (The wrapped element here is the
representative `LinearTriangle`.) -/
structure CorotQuad where
  wrapped_element : LinearTriangle
  Forces : Fin 3 → Vec2
  Kt : Fin 3 → Fin 3 → Matrix (Fin 2) (Fin 2) ℚ

/-- `CorotQuad.__init__(element)`: store the wrapped element and copy
its `Forces` and `Kt`. -/
def CorotQuad.init (e : LinearTriangle) : CorotQuad := ⟨e, e.Forces, e.Kt⟩

/-- `CorotQuad.updateState()`: delegate to the wrapped element's
`updateState`, then copy its `Forces` and `Kt` through unchanged. -/
def CorotQuad.updateState (wq : CorotQuad) (x0 x1 x2 : Vec2) : CorotQuad :=
  let e := wq.wrapped_element.updateState x0 x1 x2
  { wrapped_element := e, Forces := e.Forces, Kt := e.Kt }

/-- `CorotQuad.getStress()` returns `self.wrapped_element.Stress` — the
same never-written attribute as in `LinearTriangle.getStress`. -/
def CorotQuad.getStress (wq : CorotQuad) : Except PyErr PK1Comps :=
  match wq.wrapped_element.Stress with
  | some s => .ok s
  | none => .error ⟨.AttributeError, "LinearTriangle object has no attribute Stress"⟩

/-- `CorotQuad.setSurfaceLoad(face, pn, ps=0)` body: the source line is
`self.wrapped_element.setSurfaceLoad(self, face, pn, ps=0)`, i.e. the
bound method of the wrapped element is called with THREE positional
arguments (the wrapper object itself, then `face`, then `pn`) and the
keyword `ps`. -/
def CorotQuad.setSurfaceLoad (wq : CorotQuad) (face : Fin 3) (pn : ℚ) :
    Except PyErr CorotQuad :=
  (wq.wrapped_element.setSurfaceLoadCall [.obj, .face face, .num pn] ["ps"]).map
    (fun e => { wq with wrapped_element := e })

/-! ## Lemmas about the DOF registry -/

theorem alookup_append_of_some {β : Type} {l : List (String × β)} {c : String} {v : β}
    (l2 : List (String × β)) (h : alookup l c = some v) :
    alookup (l ++ l2) c = some v := by
  induction l with
  | nil => simp [alookup] at h
  | cons p rest ih =>
      by_cases hk : p.1 = c
      · simpa [alookup, hk] using h
      · simp only [alookup, hk, if_false] at h
        simpa [alookup, hk] using ih h

theorem alookup_append_self {β : Type} {l : List (String × β)} {c : String} (v : β)
    (h : alookup l c = none) : alookup (l ++ [(c, v)]) c = some v := by
  induction l with
  | nil => simp [alookup]
  | cons p rest ih =>
      by_cases hk : p.1 = c
      · simp [alookup, hk] at h
      · simp only [alookup, hk, if_false] at h
        simpa [alookup, hk] using ih h

theorem alookup_mem {β : Type} {l : List (String × β)} {c : String} {v : β}
    (h : alookup l c = some v) : (c, v) ∈ l := by
  induction l with
  | nil => simp [alookup] at h
  | cons p rest ih =>
      obtain ⟨k, w⟩ := p
      by_cases hk : k = c
      · simp only [alookup, hk, if_true] at h
        subst hk
        cases h
        exact List.mem_cons_self _ _
      · simp only [alookup, hk, if_false] at h
        exact List.mem_cons_of_mem _ (ih h)

/-- One `request` loop step never changes an index that is already
assigned. -/
theorem requestOne_stable {n : Node} {d c : String} {i : Nat}
    (h : alookup n.dofs c = some i) : alookup (n.requestOne d).1.dofs c = some i := by
  cases hd : alookup n.dofs d with
  | some j => simpa [Node.requestOne, hd] using h
  | none => simpa [Node.requestOne, hd] using alookup_append_of_some _ h

/-- A `request` loop step on an unknown code binds it to the next index
`ndofs`, increments the DOF count by one, and returns that index. -/
theorem requestOne_new {n : Node} {d : String} (h : alookup n.dofs d = none) :
    (n.requestOne d).2 = n.ndofs ∧ (n.requestOne d).1.ndofs = n.ndofs + 1 ∧
      alookup (n.requestOne d).1.dofs d = some n.ndofs := by
  refine ⟨by simp [Node.requestOne, h], by simp [Node.requestOne, h], ?_⟩
  simpa [Node.requestOne, h] using alookup_append_self n.ndofs h

/-- After a `request` loop step, the processed code is bound to the
returned index. -/
theorem requestOne_self {n : Node} {d : String} :
    alookup (n.requestOne d).1.dofs d = some (n.requestOne d).2 := by
  cases hd : alookup n.dofs d with
  | some j => simp [Node.requestOne, hd]
  | none => simpa [Node.requestOne, hd] using alookup_append_self n.ndofs hd

theorem requestLoop_stable {dl : List String} : ∀ {n : Node} {c : String} {i : Nat},
    alookup n.dofs c = some i → alookup (n.requestLoop dl).1.dofs c = some i := by
  induction dl with
  | nil => intro n c i h; simpa [Node.requestLoop] using h
  | cons d rest ih =>
      intro n c i h
      simpa [Node.requestLoop] using ih (requestOne_stable h)

theorem requestLoop_forall2 {dl : List String} : ∀ (n : Node),
    List.Forall₂ (fun c i => alookup (n.requestLoop dl).1.dofs c = some i) dl
      (n.requestLoop dl).2 := by
  induction dl with
  | nil => intro n; simp [Node.requestLoop]
  | cons d rest ih =>
      intro n
      simp only [Node.requestLoop]
      refine List.Forall₂.cons ?_ ?_
      · exact requestLoop_stable requestOne_self
      · exact ih (n.requestOne d).1

theorem requestOne_elements {n : Node} {d : String} :
    (n.requestOne d).1.elements = n.elements := by
  cases hd : alookup n.dofs d with
  | some j => simp [Node.requestOne, hd]
  | none => simp [Node.requestOne, hd]

theorem requestLoop_elements {dl : List String} : ∀ {n : Node},
    (n.requestLoop dl).1.elements = n.elements := by
  induction dl with
  | nil => intro n; simp [Node.requestLoop]
  | cons d rest ih =>
      intro n
      simpa [Node.requestLoop, ih] using requestOne_elements

theorem request_dofs_eq {n : Node} {dl : List String} {caller : Nat} :
    (n.request dl caller).1.dofs = (n.requestLoop dl).1.dofs := by
  by_cases h : caller ∈ (n.requestLoop dl).1.elements <;> simp [Node.request, h]

theorem request_idx_eq {n : Node} {dl : List String} {caller : Nat} :
    (n.request dl caller).2 = (n.requestLoop dl).2 := by
  by_cases h : caller ∈ (n.requestLoop dl).1.elements <;> simp [Node.request, h]

/-- `request` leaves the caller recorded exactly once when it was
recorded at most once before. -/
theorem request_count {n : Node} {dl : List String} {caller : Nat}
    (h : n.elements.count caller ≤ 1) :
    (n.request dl caller).1.elements.count caller = 1 := by
  by_cases hm : caller ∈ (n.requestLoop dl).1.elements
  · have h1 : 0 < (n.requestLoop dl).1.elements.count caller :=
      List.count_pos_iff.mpr hm
    have h2 : (n.requestLoop dl).1.elements.count caller ≤ 1 := by
      rw [requestLoop_elements]; exact h
    simp only [Node.request, hm, if_true]
    omega
  · have h0 : (n.requestLoop dl).1.elements.count caller = 0 :=
      List.count_eq_zero.mpr hm
    simp [Node.request, hm, List.count_append, h0]

/-- C1: for every `request(dof_list, caller)` call on a Node, a DOF code
already in the registry keeps the local index it was first assigned;
each code not yet known (at the loop step that processes it) is assigned
the next consecutive local index and the DOF count increases by one; the
call returns the tuple of local indices of the requested codes in the
order requested; and the caller is recorded as a dependent element at
most (and exactly) once no matter how often it calls. -/
theorem C1_request_registry (n : Node) (dl : List String) (caller : Nat) :
    (∀ (c : String) (i : Nat), alookup n.dofs c = some i →
        alookup (n.request dl caller).1.dofs c = some i) ∧
    (∀ (m : Node) (c : String), alookup m.dofs c = none →
        (m.requestOne c).2 = m.ndofs ∧ (m.requestOne c).1.ndofs = m.ndofs + 1 ∧
        alookup (m.requestOne c).1.dofs c = some m.ndofs) ∧
    List.Forall₂ (fun c i => alookup (n.request dl caller).1.dofs c = some i) dl
      (n.request dl caller).2 ∧
    (n.elements.count caller ≤ 1 → (n.request dl caller).1.elements.count caller = 1) := by
  refine ⟨?_, ?_, ?_, ?_⟩
  · intro c i h
    rw [request_dofs_eq]
    exact requestLoop_stable h
  · intro m c h
    exact requestOne_new h
  · rw [request_idx_eq]
    have h := @requestLoop_forall2 dl n
    refine h.imp ?_
    intro c i hc
    rwa [request_dofs_eq]
  · exact request_count

/-- Concrete node used by the C1 witness: a fresh node after a first
`request(('ux',), 7)`. -/
def nodeC1 : Node := ((Node.init 0 0 none).request ["ux"] 7).1

/-- Witness for C1 at a concrete input: after a second request of
`('ux', 'uy')` by the same caller 7, the index of `ux` is still 0, the
returned indices are `(0, 1)`, and caller 7 is recorded exactly once. -/
theorem C1_request_registry_witness :
    alookup (nodeC1.request ["ux", "uy"] 7).1.dofs "ux" = some 0 ∧
    List.Forall₂ (fun c i => alookup (nodeC1.request ["ux", "uy"] 7).1.dofs c = some i)
      ["ux", "uy"] (nodeC1.request ["ux", "uy"] 7).2 ∧
    (nodeC1.request ["ux", "uy"] 7).1.elements.count 7 = 1 := by
  have h := C1_request_registry nodeC1 ["ux", "uy"] 7
  exact ⟨h.1 "ux" 0 (by decide), h.2.2.1, h.2.2.2 (by decide)⟩

/-! ## The displacement-length invariant (C2) -/

theorem wfDofs_iff {n : Node} : n.wfDofs = true ↔
    (∀ p ∈ n.dofs, p.2 < n.ndofs) ∧ n.dofs.length = n.ndofs := by
  simp [Node.wfDofs]

theorem dispLenInv_iff {n : Node} : n.dispLenInv = true ↔
    ∀ v, n.disp = some v → v.length = n.ndofs := by
  cases h : n.disp <;> simp [Node.dispLenInv, h]

theorem requestOne_wf {n : Node} {d : String} (h : n.wfDofs = true) :
    (n.requestOne d).1.wfDofs = true := by
  rw [wfDofs_iff] at h ⊢
  cases hd : alookup n.dofs d with
  | some j => simpa [Node.requestOne, hd] using h
  | none =>
      simp only [Node.requestOne, hd]
      constructor
      · intro p hp
        simp only [List.mem_append, List.mem_singleton] at hp
        rcases hp with hp | hp
        · exact Nat.lt_succ_of_lt (h.1 p hp)
        · simp [hp]
      · simp [h.2]

theorem requestLoop_wf {dl : List String} : ∀ {n : Node}, n.wfDofs = true →
    (n.requestLoop dl).1.wfDofs = true := by
  induction dl with
  | nil => intro n h; simpa [Node.requestLoop] using h
  | cons d rest ih =>
      intro n h
      simpa [Node.requestLoop] using ih (requestOne_wf h)

theorem request_wf {n : Node} {dl : List String} {caller : Nat} (h : n.wfDofs = true) :
    (n.request dl caller).1.wfDofs = true := by
  have h1 := @requestLoop_wf dl n h
  by_cases hm : caller ∈ (n.requestLoop dl).1.elements <;>
    simpa [Node.request, hm, Node.wfDofs] using h1

theorem requestOne_disp {n : Node} {d : String} :
    (n.requestOne d).1.disp = n.disp := by
  cases hd : alookup n.dofs d <;> simp [Node.requestOne, hd]

theorem requestLoop_disp {dl : List String} : ∀ {n : Node},
    (n.requestLoop dl).1.disp = n.disp := by
  induction dl with
  | nil => intro n; simp [Node.requestLoop]
  | cons d rest ih =>
      intro n
      simpa [Node.requestLoop, ih] using requestOne_disp

theorem request_disp {n : Node} {dl : List String} {caller : Nat} :
    (n.request dl caller).1.disp = n.disp := by
  by_cases hm : caller ∈ (n.requestLoop dl).1.elements <;>
    simpa [Node.request, hm] using requestLoop_disp

/-- When every requested code is already registered, the registration
loop does not change the node at all. -/
theorem requestLoop_id {dl : List String} : ∀ {n : Node},
    (∀ c ∈ dl, (alookup n.dofs c).isSome) → (n.requestLoop dl).1 = n := by
  induction dl with
  | nil => intro n _; simp [Node.requestLoop]
  | cons d rest ih =>
      intro n h
      have hd : (alookup n.dofs d).isSome := h d (List.mem_cons_self d rest)
      obtain ⟨j, hj⟩ := Option.isSome_iff_exists.mp hd
      have hone : (n.requestOne d).1 = n := by simp [Node.requestOne, hj]
      simp only [Node.requestLoop]
      rw [hone]
      exact ih (fun c hc => h c (List.mem_cons_of_mem d hc))

theorem request_ndofs_of_registered {n : Node} {dl : List String} {caller : Nat}
    (h : ∀ c ∈ dl, (alookup n.dofs c).isSome) :
    (n.request dl caller).1.ndofs = n.ndofs := by
  have hid := @requestLoop_id dl n h
  simp only [Node.request, hid]
  split <;> rfl

/-- Each public operation, applied under its side condition, preserves
registry well-formedness and the displacement-length invariant. -/
theorem applyOp_wf_inv {n : Node} {op : NodeOp} (hwf : n.wfDofs = true)
    (hinv : n.dispLenInv = true) (hsafe : n.safeOp op = true) :
    (n.applyOp op).wfDofs = true ∧ (n.applyOp op).dispLenInv = true := by
  cases op with
  | request dl c =>
      refine ⟨request_wf hwf, ?_⟩
      simp only [Node.safeOp, Bool.or_eq_true, decide_eq_true_eq, List.all_eq_true,
        Option.isSome_iff_exists] at hsafe
      rw [dispLenInv_iff]
      intro v hv
      rw [Node.applyOp, request_disp] at hv
      rcases hsafe with hnone | hreg
      · rw [hnone] at hv; cases hv
      · have hnd : ((n.request dl c).1).ndofs = n.ndofs :=
          request_ndofs_of_registered (fun d hd => by
            obtain ⟨j, hj⟩ := hreg d hd
            simp [hj])
        rw [Node.applyOp, hnd]
        exact dispLenInv_iff.mp hinv v hv
  | getDisp =>
      cases hd : n.disp with
      | some v =>
          simp only [Node.applyOp, Node.getDisp, hd]
          exact ⟨hwf, hinv⟩
      | none =>
          simp only [Node.applyOp, Node.getDisp, hd]
          refine ⟨by simpa [Node.wfDofs] using hwf, ?_⟩
          rw [dispLenInv_iff]
          intro v hv
          simp only at hv
          cases hv
          simp [npZeros]
  | getDeformedPos f =>
      cases hd : n.disp with
      | some v =>
          simp only [Node.applyOp, Node.getDeformedPos, Node.getDisp, hd]
          exact ⟨hwf, hinv⟩
      | none =>
          simp only [Node.applyOp, Node.getDeformedPos, Node.getDisp, hd]
          refine ⟨by simpa [Node.wfDofs] using hwf, ?_⟩
          rw [dispLenInv_iff]
          intro v hv
          simp only at hv
          cases hv
          simp [npZeros]
  | updateDisp dU =>
      refine ⟨by simpa [Node.wfDofs] using hwf, ?_⟩
      rw [dispLenInv_iff]
      intro v hv
      cases hd : n.disp with
      | none => simp [Node.applyOp, Node.updateDisp, hd] at hv
      | some w =>
          have hv2 : (if dU.length = w.length then List.zipWith (· + ·) w dU
              else if dU.length = 1 then w.map (fun x => x + dU.headD 0)
              else w) = v := by
            simpa [Node.applyOp, Node.updateDisp, hd] using hv
          have hw : w.length = n.ndofs := dispLenInv_iff.mp hinv w hd
          show v.length = (n.applyOp (NodeOp.updateDisp dU)).ndofs
          have hnd : (n.applyOp (NodeOp.updateDisp dU)).ndofs = n.ndofs := rfl
          rw [hnd, ← hv2]
          split_ifs with h1 h2
          · simp [List.length_zipWith, h1, hw]
          · simp [hw]
          · exact hw
  | setDisp U =>
      refine ⟨by simpa [Node.wfDofs] using hwf, ?_⟩
      rw [dispLenInv_iff]
      intro v hv
      simp only [Node.applyOp, Node.setDisp, Option.some.injEq] at hv
      have hlen : U.length = n.ndofs := by
        simpa [Node.safeOp] using hsafe
      simp only [Node.applyOp, Node.setDisp]
      rw [← hv]
      exact hlen
  | resetDisp =>
      refine ⟨by simpa [Node.wfDofs] using hwf, ?_⟩
      rw [dispLenInv_iff]
      intro v hv
      simp only [Node.applyOp, Node.resetDisp, Option.some.injEq] at hv
      simp only [Node.applyOp, Node.resetDisp]
      rw [← hv]
      simp [npZeros, (wfDofs_iff.mp hwf).2]

theorem applyOps_wf_inv {ops : List NodeOp} : ∀ {n : Node},
    n.wfDofs = true → n.dispLenInv = true → n.safeOps ops = true →
    (n.applyOps ops).wfDofs = true ∧ (n.applyOps ops).dispLenInv = true := by
  induction ops with
  | nil => intro n hwf hinv _; exact ⟨hwf, hinv⟩
  | cons op rest ih =>
      intro n hwf hinv hsafe
      simp only [Node.safeOps, Bool.and_eq_true] at hsafe
      have h := applyOp_wf_inv hwf hinv hsafe.1
      simpa [Node.applyOps] using ih h.1 h.2 hsafe.2

/-- The operation sequence refuting C2 as stated: register `ux`,
materialize the displacement vector via `getDisp`, then register `uy`. -/
def c2seq : List NodeOp := [.request ["ux"] 0, .getDisp, .request ["uy"] 0]

/-- C2 counterexample: on a fresh node, the sequence
`request(('ux',)); getDisp(); request(('uy',))` of public operations
leaves a displacement vector of length 1 while two DOF codes are
registered, so the claimed invariant is violated. -/
theorem C2_dispLen_counterexample :
    (Node.applyOps (Node.init 0 0 none) c2seq).dispLenInv = false := by decide

/-- C2 (amended): for every Node whose registry is well formed and whose
displacement vector (when it exists) has length equal to the DOF count,
and every sequence of the public operations in which `request` registers
no new code while the displacement vector exists and `setDisp` supplies
a vector of length equal to the DOF count, the invariant is preserved:
whenever the displacement vector exists its length equals the number of
distinct registered DOF codes.  (`getDisp`, `getDeformedPos`,
`_updateDisp` and `resetDisp` need no side condition.) -/
theorem C2_dispLen_inv (n : Node) (ops : List NodeOp) (hwf : n.wfDofs = true)
    (hinv : n.dispLenInv = true) (hsafe : n.safeOps ops = true) :
    (n.applyOps ops).dispLenInv = true :=
  (applyOps_wf_inv hwf hinv hsafe).2

/-- Witness for C2 (amended) at a concrete input: a fresh node with the
safe sequence `request(('ux',)); getDisp(); _updateDisp([5]);
_updateDisp([1, 2, 3]); resetDisp()` — including a matching-length and a
mismatched (no-op, `ValueError`) in-place update. -/
theorem C2_dispLen_inv_witness :
    ((Node.init 0 0 none).applyOps
        [.request ["ux"] 0, .getDisp, .updateDisp [5], .updateDisp [1, 2, 3],
          .resetDisp]).dispLenInv = true :=
  C2_dispLen_inv _ _ (by decide) (by decide) (by decide)

/-! ## areFixed (C3) -/

/-- Concrete node exhibiting the `areFixed` defect: codes `ux, uy`
registered (indices 0 and 1), then `fixDOF('uy')`. -/
def nodeC3 : Node := ((Node.init 0 0 none).request ["ux", "uy"] 0).1.fixDOF ["uy"]

/-- C3 fails on the code: with `fixity = ['uy']` and registry
`{ux: 0, uy: 1}`, `areFixed` returns `[0]` — the enumeration position
inside the fixity list — although the local index `request` assigned to
the fixed code `uy` is 1, so the index reported to the assembly as fixed
is not the index of a fixed DOF. -/
theorem C3_areFixed_bug :
    nodeC3.fixity = ["uy"] ∧ alookup nodeC3.dofs "uy" = some 1 ∧
      alookup nodeC3.dofs "ux" = some 0 ∧ nodeC3.areFixed = [0] ∧
      nodeC3.areFixed ≠ [1] := by
  refine ⟨rfl, by decide, by decide, rfl, by decide⟩

/-! ## dof2idx (C9) -/

theorem dof2idx_ok {n : Node} {dl : List String}
    (h : ∀ d ∈ dl, (alookup n.dofs d).isSome) :
    n.dof2idx dl = .ok (dl.map (fun d => (alookup n.dofs d).getD 0)) := by
  induction dl with
  | nil => simp [Node.dof2idx]
  | cons d rest ih =>
      obtain ⟨i, hi⟩ := Option.isSome_iff_exists.mp (h d (List.mem_cons_self d rest))
      have hrest := ih (fun c hc => h c (List.mem_cons_of_mem d hc))
      simp [Node.dof2idx, hi, hrest, Except.map]

theorem dof2idx_error {n : Node} {c : String} (hc : alookup n.dofs c = none) :
    ∀ (pre post : List String), (∀ d ∈ pre, (alookup n.dofs d).isSome) →
      n.dof2idx (pre ++ c :: post) = .error ⟨.KeyError, keyErrMsg c n.index⟩ := by
  intro pre
  induction pre with
  | nil => intro post _; simp [Node.dof2idx, hc]
  | cons d rest ih =>
      intro post h
      obtain ⟨i, hi⟩ := Option.isSome_iff_exists.mp (h d (List.mem_cons_self d rest))
      have hrest := ih post (fun e he => h e (List.mem_cons_of_mem d he))
      simp [Node.dof2idx, hi, hrest, Except.map]

/-- C9: `dof2idx` with a DOF code not in the registry — on the
single-string branch, or anywhere in the list branch after registered
codes — raises a `KeyError` (a Python subclass of `LookupError`) whose
message names the missing code and the node index; when every requested
code is registered it returns the array of their local indices in the
order requested. -/
theorem C9_dof2idx_lookup_error (n : Node) (dl pre post : List String) (c : String) :
    ((∀ d ∈ dl, (alookup n.dofs d).isSome) →
        n.dof2idx dl = .ok (dl.map (fun d => (alookup n.dofs d).getD 0))) ∧
    (dl = pre ++ c :: post → (∀ d ∈ pre, (alookup n.dofs d).isSome) →
        alookup n.dofs c = none →
        n.dof2idx dl = .error ⟨.KeyError, keyErrMsg c n.index⟩) ∧
    (alookup n.dofs c = none →
        n.dof2idxStr c = .error ⟨.KeyError, keyErrMsg c n.index⟩) ∧
    (∀ i, alookup n.dofs c = some i → n.dof2idxStr c = .ok [i]) ∧
    PyExcClass.KeyError.isLookupError = true := by
  refine ⟨dof2idx_ok, ?_, ?_, ?_, rfl⟩
  · intro hdl hpre hc
    rw [hdl]
    exact dof2idx_error hc pre post hpre
  · intro hc
    simp [Node.dof2idxStr, hc]
  · intro i hi
    simp [Node.dof2idxStr, hi]

/-- Concrete node for the C9 witness: registry `{ux: 0, uy: 1}` on a
node with index 4. -/
def nodeC9 : Node :=
  { ((Node.init 0 0 none).request ["ux", "uy"] 0).1 with index := 4 }

/-- Witness for C9 at a concrete input: requesting `['uy', 'rz']` fails
with the KeyError message naming `rz` and node 4, requesting
`['uy', 'ux']` returns `[1, 0]`, and the single-code branch behaves the
same way. -/
theorem C9_dof2idx_lookup_error_witness :
    nodeC9.dof2idx ["uy", "ux"] = .ok [1, 0] ∧
    nodeC9.dof2idx ["uy", "rz"] =
      .error ⟨.KeyError, "Dof rz does not exist in node 4"⟩ ∧
    nodeC9.dof2idxStr "rz" =
      .error ⟨.KeyError, "Dof rz does not exist in node 4"⟩ ∧
    nodeC9.dof2idxStr "ux" = .ok [0] := by
  have h := C9_dof2idx_lookup_error nodeC9 ["uy", "rz"] ["uy"] [] "rz"
  refine ⟨?_, ?_, ?_, ?_⟩
  · have h2 := (C9_dof2idx_lookup_error nodeC9 ["uy", "ux"] [] [] "q").1 (by decide)
    simpa using h2
  · have h2 := h.2.1 rfl (by decide) (by decide)
    simpa [keyErrMsg] using h2
  · have h2 := h.2.2.1 (by decide)
    simpa [keyErrMsg] using h2
  · exact (C9_dof2idx_lookup_error nodeC9 [] [] [] "ux").2.2.2.1 0 (by decide)

/-! ## getLoad (C10) -/

theorem getLoadLoop_ok {dofs : List (String × Nat)} {k : Nat}
    (hd : ∀ p ∈ dofs, p.2 < k) :
    ∀ (loads : List (String × ℚ)) (force : List ℚ), force.length = k →
      ∃ v, getLoadLoop dofs loads force = .ok v ∧ v.length = k := by
  intro loads
  induction loads with
  | nil => intro force hf; exact ⟨force, rfl, hf⟩
  | cons p rest ih =>
      intro force hf
      obtain ⟨dof, val⟩ := p
      cases hl : alookup dofs dof with
      | none => simpa [getLoadLoop, hl] using ih force hf
      | some i =>
          have hik : i < k := hd (dof, i) (alookup_mem hl)
          have hset : npSet force i val = .ok (force.set i val) := by
            simp [npSet, hf, hik]
          have hlen : (force.set i val).length = k := by simp [hf]
          obtain ⟨v, hv, hvl⟩ := ih (force.set i val) hlen
          refine ⟨v, ?_, hvl⟩
          simp only [getLoadLoop, hl]
          rw [hset]
          exact hv

theorem getLoadLoop_filter {dofs : List (String × Nat)} :
    ∀ (loads : List (String × ℚ)) (force : List ℚ),
      getLoadLoop dofs loads force =
        getLoadLoop dofs (loads.filter (fun p => (alookup dofs p.1).isSome)) force := by
  intro loads
  induction loads with
  | nil => intro force; rfl
  | cons p rest ih =>
      intro force
      obtain ⟨dof, val⟩ := p
      cases hl : alookup dofs dof with
      | none => simp [getLoadLoop, hl, List.filter_cons, ih]
      | some i =>
          have hfil : List.filter (fun p => (alookup dofs p.1).isSome) ((dof, val) :: rest)
              = (dof, val) :: List.filter (fun p => (alookup dofs p.1).isSome) rest := by
            simp [List.filter_cons, hl]
          rw [hfil]
          simp only [getLoadLoop, hl]
          cases npSet force i val with
          | error e => rfl
          | ok f2 => exact ih f2

/-- Adding or overwriting a load entry for an unregistered code does not
change the result of the `getLoad` loop. -/
theorem getLoadLoop_aset_unreg {dofs : List (String × Nat)} {c : String}
    (hc : alookup dofs c = none) (x : ℚ) :
    ∀ (loads : List (String × ℚ)) (force : List ℚ),
      getLoadLoop dofs (aset loads c x) force = getLoadLoop dofs loads force := by
  intro loads
  induction loads with
  | nil => intro force; simp [aset, getLoadLoop, hc]
  | cons p rest ih =>
      intro force
      obtain ⟨k, w⟩ := p
      by_cases hk : k = c
      · subst hk
        simp [aset, getLoadLoop, hc]
      · simp only [aset, hk, if_false]
        cases hl : alookup dofs k with
        | none => simp [getLoadLoop, hl, ih]
        | some i =>
            simp only [getLoadLoop, hl]
            cases npSet force i w with
            | error e => rfl
            | ok f2 => exact ih f2

/-- C10: for every well-formed Node, `getLoad()` raises nothing and
returns a vector whose length is the registered DOF count; load entries
whose DOF code was never registered are silently ignored (filtering them
out of the load map does not change the result), and a `setLoad` or
`addLoad` of a single unregistered code leaves `getLoad` unchanged. -/
theorem C10_getLoad_total (n : Node) (h : n.wfDofs = true) :
    (∃ v, n.getLoad = .ok v ∧ v.length = n.ndofs) ∧
    n.getLoad = getLoadLoop n.dofs
        (n.loads.filter (fun p => (alookup n.dofs p.1).isSome)) (npZeros n.ndofs) ∧
    (∀ (c : String) (x : ℚ), alookup n.dofs c = none →
        (n.addLoad [x] [c]).getLoad = n.getLoad ∧
        (n.setLoad [x] [c]).getLoad = n.getLoad) := by
  have hd : ∀ p ∈ n.dofs, p.2 < n.ndofs := (wfDofs_iff.mp h).1
  refine ⟨?_, ?_, ?_⟩
  · exact getLoadLoop_ok hd n.loads (npZeros n.ndofs) (by simp [npZeros])
  · exact getLoadLoop_filter n.loads (npZeros n.ndofs)
  · intro c x hc
    have hadd : (n.addLoad [x] [c]).dofs = n.dofs ∧ (n.addLoad [x] [c]).ndofs = n.ndofs ∧
        ((n.addLoad [x] [c]).loads = aset n.loads c ((alookup n.loads c).getD 0 + x) ∨
          (n.addLoad [x] [c]).loads = aset n.loads c x) := by
      cases hl : alookup n.loads c with
      | some old =>
          refine ⟨?_, ?_, .inl ?_⟩ <;> simp [Node.addLoad, Node.addLoadOne, hl]
      | none =>
          refine ⟨?_, ?_, .inr ?_⟩ <;> simp [Node.addLoad, Node.addLoadOne, hl]
    obtain ⟨hdofs, hnd, hloads⟩ := hadd
    constructor
    · show getLoadLoop (n.addLoad [x] [c]).dofs (n.addLoad [x] [c]).loads
          (npZeros (n.addLoad [x] [c]).ndofs) = n.getLoad
      rw [hdofs, hnd]
      rcases hloads with h1 | h1 <;> rw [h1, getLoadLoop_aset_unreg hc] <;> rfl
    · show getLoadLoop n.dofs (aset n.loads c x) (npZeros n.ndofs) = n.getLoad
      rw [getLoadLoop_aset_unreg hc]
      rfl

/-- Concrete node for the C10 witness: registry `{ux: 0, uy: 1}`, loads
`{uy: 5, qq: 7}` with `qq` never registered. -/
def nodeC10 : Node :=
  (((Node.init 0 0 none).request ["ux", "uy"] 0).1.addLoad [5, 7] ["uy", "qq"])

/-- Witness for C10 at a concrete input: `getLoad` returns `[0, 5]`
(length 2 = DOF count) with the unregistered `qq` entry ignored. -/
theorem C10_getLoad_total_witness :
    (∃ v, nodeC10.getLoad = .ok v ∧ v.length = nodeC10.ndofs) ∧
    (nodeC10.addLoad [3] ["rz"]).getLoad = nodeC10.getLoad := by
  have h := C10_getLoad_total nodeC10 (by decide)
  exact ⟨h.1, (h.2.2 "rz" 3 (by decide)).1⟩

/-! ## Corotational wrapper pass-through (C4, C5) -/

/-- C4: `CorotQuad.updateState()` applies the wrapped element's
`updateState` exactly once (the post-state wrapped element is one
application of `LinearTriangle.updateState` to the pre-state wrapped
element), and afterwards the wrapper's `Forces` and `Kt` equal the
wrapped element's `Forces` and `Kt`, so wrapper and wrapped element
produce identical force/stiffness output for the same nodal state. -/
theorem C4_corot_passthrough (wq : CorotQuad) (x0 x1 x2 : Vec2) :
    (wq.updateState x0 x1 x2).wrapped_element = wq.wrapped_element.updateState x0 x1 x2 ∧
    (wq.updateState x0 x1 x2).Forces = (wq.wrapped_element.updateState x0 x1 x2).Forces ∧
    (wq.updateState x0 x1 x2).Kt = (wq.wrapped_element.updateState x0 x1 x2).Kt :=
  ⟨rfl, rfl, rfl⟩

/-- C5 fails on the code: for every wrapper and every `(face, pn)`,
`CorotQuad.setSurfaceLoad(face, pn)` raises `TypeError` — the delegated
call passes the wrapper itself as an extra positional argument and the
keyword `ps`, which `LinearTriangle.setSurfaceLoad(self, face, w)` does
not accept — while the direct call on the wrapped element succeeds and
sets `distributed_load[face] = pn`.  The two calls therefore never have
the same effect. -/
theorem C5_setSurfaceLoad_bug (wq : CorotQuad) (face : Fin 3) (pn : ℚ) :
    wq.setSurfaceLoad face pn =
      .error ⟨.TypeError, "setSurfaceLoad got unexpected arguments"⟩ ∧
    wq.wrapped_element.setSurfaceLoadCall [.face face, .num pn] [] =
      .ok (wq.wrapped_element.setSurfaceLoad face pn) ∧
    (wq.wrapped_element.setSurfaceLoad face pn).distributed_load face = pn := by
  refine ⟨rfl, rfl, ?_⟩
  simp [LinearTriangle.setSurfaceLoad]

/-! ## getStress (C8) -/

/-- C8 fails on the code: `updateState` stores the per-update stress in
the attribute `stress` (lower case), but `getStress` returns the
attribute `Stress` (capitalized), which nothing under src/ ever assigns:
`updateState` leaves `Stress` exactly as it was, so `getStress` never
returns the stress stored by the update — with no base-class default it
raises `AttributeError`, both on the element and through the
corotational wrapper. -/
theorem C8_getStress_bug (X0 X1 X2 x0 x1 x2 : Vec2) (m : Material)
    (s0 : Option PK1Comps) :
    (((LinearTriangle.init X0 X1 X2 m s0).updateState x0 x1 x2).stress).isSome = true ∧
    ((LinearTriangle.init X0 X1 X2 m s0).updateState x0 x1 x2).Stress =
      (LinearTriangle.init X0 X1 X2 m s0).Stress ∧
    ((LinearTriangle.init X0 X1 X2 m none).updateState x0 x1 x2).getStress =
      .error ⟨.AttributeError, "LinearTriangle object has no attribute Stress"⟩ ∧
    ((CorotQuad.init (LinearTriangle.init X0 X1 X2 m none)).updateState
        x0 x1 x2).getStress =
      .error ⟨.AttributeError, "LinearTriangle object has no attribute Stress"⟩ :=
  ⟨rfl, rfl, rfl, rfl⟩

/-! ## LinearTriangle kinematics (C6) and stiffness symmetry (C7) -/

/-- For a 2x2 matrix, the determinant of the Gram matrix `g @ g.T` is
the square of the determinant of `g`. -/
theorem det2_mul_transpose (g : Matrix (Fin 2) (Fin 2) ℚ) :
    det2 (g * g.transpose) = det2 g ^ 2 := by
  simp only [det2, Matrix.mul_apply, Matrix.transpose_apply, Fin.sum_univ_two]
  ring

/-- C6: in `LinearTriangle.updateState`, the deformation gradient `F` is
the sum of outer products of the deformed edge base vectors with the
reference dual base vectors, the stored 1st Piola-Kirchhoff stress is
`P = F @ S` with `S` the symmetric matrix of the material's 2nd
Piola-Kirchhoff stress, the third dual vector is `Gu = -Gs - Gt`, the
internal force at node `I` is the traction `P @ G_I` times the reference
area times the material thickness, and the reference quantities are
those precomputed at construction, with the area equal to half the
(nonnegative) square root of the determinant of the reference metric. -/
theorem C6_updateState_forces (X0 X1 X2 x0 x1 x2 : Vec2) (m : Material)
    (s0 : Option PK1Comps) :
    let t := LinearTriangle.init X0 X1 X2 m s0
    let t1 := t.updateState x0 x1 x2
    let Gs := t.gcont 0
    let Gt := t.gcont 1
    let Gu := -Gs - Gt
    let gs := x1 - x0
    let gt := x2 - x0
    let F := Matrix.vecMulVec gs Gs + Matrix.vecMulVec gt Gt
    let eps := (2 : ℚ)⁻¹ • (F.transpose * F - 1)
    let sc := m.stressOf ⟨eps 0 0, eps 1 1, eps 0 1 + eps 1 0⟩
    let S : Matrix (Fin 2) (Fin 2) ℚ := Matrix.of ![![sc.xx, sc.xy], ![sc.xy, sc.yy]]
    let P := F * S
    (∀ i : Fin 3, t1.Forces i =
        (t.area * m.thickness) • P.mulVec (![Gu, Gs, Gt] i)) ∧
    t1.stress = some ⟨P 0 0, P 0 1, P 1 0, P 1 1⟩ ∧
    t.gcov = Matrix.of ![X1 - X0, X2 - X0] ∧
    t.GIJ = t.gcov * t.gcov.transpose ∧
    t.gcont = inv2 t.GIJ * t.gcov ∧
    0 ≤ t.area ∧ 4 * t.area ^ 2 = det2 t.GIJ := by
  intro t t1 Gs Gt Gu gs gt F eps sc S P
  refine ⟨?_, rfl, rfl, rfl, rfl, ?_, ?_⟩
  · intro i
    fin_cases i <;> rfl
  · show 0 ≤ sqrtGramDet (Matrix.of ![X1 - X0, X2 - X0]) / 2
    have h := abs_nonneg (det2 (Matrix.of ![X1 - X0, X2 - X0]))
    unfold sqrtGramDet
    linarith
  · show 4 * (sqrtGramDet (Matrix.of ![X1 - X0, X2 - X0]) / 2) ^ 2 = det2 t.GIJ
    have hG : t.GIJ =
        Matrix.of ![X1 - X0, X2 - X0] * (Matrix.of ![X1 - X0, X2 - X0]).transpose := rfl
    rw [hG, det2_mul_transpose]
    unfold sqrtGramDet
    rw [div_pow, sq_abs]
    ring

/-- The geometric-stiffness scalar `(Gi @ S) . Gj` is symmetric in its
two vector arguments when `S` is symmetric. -/
theorem dot_vecMul_symm {S : Matrix (Fin 2) (Fin 2) ℚ} (h01 : S 0 1 = S 1 0)
    (u v : Vec2) :
    Matrix.dotProduct (Matrix.vecMul u S) v = Matrix.dotProduct (Matrix.vecMul v S) u := by
  simp [Matrix.vecMul, Matrix.dotProduct, Fin.sum_univ_two]
  rw [h01]
  ring

/-- Transpose of one stiffness block `Bi.T @ Ct @ Bj + c * I` for
symmetric `Ct`. -/
theorem kt_block_transpose {Bi Bj : Matrix (Fin 3) (Fin 2) ℚ}
    {Ct : Matrix (Fin 3) (Fin 3) ℚ} (hCt : Ct.transpose = Ct) {a b : ℚ} (hab : a = b) :
    (Bi.transpose * Ct * Bj + a • (1 : Matrix (Fin 2) (Fin 2) ℚ)).transpose =
      Bj.transpose * Ct * Bi + b • (1 : Matrix (Fin 2) (Fin 2) ℚ) := by
  rw [Matrix.transpose_add, Matrix.transpose_smul, Matrix.transpose_one,
    Matrix.transpose_mul, Matrix.transpose_mul, Matrix.transpose_transpose, hCt,
    ← Matrix.mul_assoc, hab]

/-- C7: for every element state whose material tangent is symmetric (the
material stress matrix `S` is symmetric by construction), the
tangent-stiffness block matrix computed by `updateState` satisfies
`Kt[i][j].T = Kt[j][i]` for all node pairs, with each block the sum of
the material part `Bi.T @ Ct @ Bj` and the geometric part
`(Gi @ S . Gj) * area * thickness` times the 2x2 identity. -/
theorem C7_stiffness_symmetry (t : LinearTriangle) (x0 x1 x2 : Vec2)
    (hCt : ∀ s, (t.material.stiffnessOf s).transpose = t.material.stiffnessOf s) :
    let t1 := t.updateState x0 x1 x2
    let Gs := t.gcont 0
    let Gt := t.gcont 1
    let Gu := -Gs - Gt
    let gs := x1 - x0
    let gt := x2 - x0
    let F := Matrix.vecMulVec gs Gs + Matrix.vecMulVec gt Gt
    let eps := (2 : ℚ)⁻¹ • (F.transpose * F - 1)
    let strain : StrainComps := ⟨eps 0 0, eps 1 1, eps 0 1 + eps 1 0⟩
    let sc := t.material.stressOf strain
    let S : Matrix (Fin 2) (Fin 2) ℚ := Matrix.of ![![sc.xx, sc.xy], ![sc.xy, sc.yy]]
    let gx := Gs 0 • gs + Gt 0 • gt
    let gy := Gs 1 • gs + Gt 1 • gt
    let GI : Fin 3 → Vec2 := ![Gu, Gs, Gt]
    let B : Fin 3 → Matrix (Fin 3) (Fin 2) ℚ := fun i =>
      Matrix.of ![GI i 0 • gx, GI i 1 • gy, GI i 1 • gx + GI i 0 • gy]
    let scale := t.area * t.material.thickness
    let Ct := scale • t.material.stiffnessOf strain
    (∀ i j, t1.Kt i j = (B i).transpose * Ct * B j +
        (Matrix.dotProduct (Matrix.vecMul (GI i) S) (GI j) * scale) •
          (1 : Matrix (Fin 2) (Fin 2) ℚ)) ∧
    (∀ i j, (t1.Kt i j).transpose = t1.Kt j i) := by
  intro t1 Gs Gt Gu gs gt F eps strain sc S gx gy GI B scale Ct
  have hform : ∀ i j, t1.Kt i j = (B i).transpose * Ct * B j +
      (Matrix.dotProduct (Matrix.vecMul (GI i) S) (GI j) * scale) •
        (1 : Matrix (Fin 2) (Fin 2) ℚ) := fun i j => rfl
  refine ⟨hform, ?_⟩
  intro i j
  rw [hform i j, hform j i]
  have hCtScaled : Ct.transpose = Ct := by
    show (scale • t.material.stiffnessOf strain).transpose = _
    rw [Matrix.transpose_smul, hCt strain]
  have hS : S 0 1 = S 1 0 := rfl
  exact kt_block_transpose hCtScaled (by rw [dot_vecMul_symm hS])

/-- Concrete material for the C7 witness: constant symmetric (identity)
tangent. -/
def matC7 : Material := ⟨fun _ => ⟨1, 2, 3⟩, fun _ => 1, 1⟩

/-- Concrete element for the C7 witness: unit right triangle. -/
def triC7 : LinearTriangle := LinearTriangle.init ![0, 0] ![1, 0] ![0, 1] matC7 none

/-- Witness for C7 at a concrete input: a stretched configuration of the
unit triangle with the constant symmetric tangent. -/
theorem C7_stiffness_symmetry_witness :
    ((triC7.updateState ![0, 0] ![(11 : ℚ) / 10, 0] ![0, 1]).Kt 0 1).transpose =
      (triC7.updateState ![0, 0] ![(11 : ℚ) / 10, 0] ![0, 1]).Kt 1 0 :=
  (C7_stiffness_symmetry triC7 ![0, 0] ![(11 : ℚ) / 10, 0] ![0, 1]
    (fun _ => Matrix.transpose_one)).2 0 1

end FEMedu
